import Mathlib

/-!
# Verification of the bigraph substitution codec

Shallow embedding of the core of the `bigraph` repository
(`src/bigraph/constants.py`, `key_manager.py`, `encoder.py`, `decoder.py`)
and proofs of the spec claims about it.

Meanings are the Python strings the source uses (`"AB"`, `"NUM_3"`,
`"NUM_NEG_3"`, `"MULDIV"`, `"SPECIAL_!"`, `"SPACE_JQ"`).  Tokens are
integers, exactly as in the source (negative = partial-before,
`+10000` offset = partial-after).
-/

/-! ## constants.py -/

/-- `LETTERS = 'ABCDEFGHIJKLMNOPQRSTUVWXYZ'` -/
def LETTERS : List Char := "ABCDEFGHIJKLMNOPQRSTUVWXYZ".data

/-- `BIGRAMS = [f"{a}{b}" for a in LETTERS for b in LETTERS]` (676 bigrams) -/
def BIGRAMS : List String := LETTERS.flatMap (fun a => LETTERS.map (fun b => String.mk [a, b]))

/-- `SPACE_MARKERS = ['JQ', 'QG', 'QK', 'QY', 'QZ', 'WQ', 'WZ']` -/
def SPACE_MARKERS : List String := ["JQ", "QG", "QK", "QY", "QZ", "WQ", "WZ"]

/-- `SPECIAL_CHARS = ['!', '@', '#', '$', '%', '^', '&', '*', '(', ')', '=', '<', '>', '?']` -/
def SPECIAL_CHARS : List Char := "!@#$%^&*()=<>?".data

/-- `DIGITS = ['0', ..., '9']` -/
def DIGITS : List Char := "0123456789".data

/-- `MULTIPLY_DIVIDE_MARKER = 'MULDIV'` -/
def MULTIPLY_DIVIDE_MARKER : String := "MULDIV"

/-- `TOTAL_SYMBOLS = len(BIGRAMS) + len(DIGITS) * 2 + 1 + len(SPECIAL_CHARS) + len(SPACE_MARKERS)` -/
def TOTAL_SYMBOLS : Nat :=
  BIGRAMS.length + DIGITS.length * 2 + 1 + SPECIAL_CHARS.length + SPACE_MARKERS.length

/-! ## key_manager.py : the item universe built inside `generate_key` -/

/-- The ordered list of all meanings, exactly as `generate_key` builds `items`:
bigrams, then `NUM_d`, then `NUM_NEG_d`, then `MULDIV`, then `SPECIAL_c`,
then `SPACE_m`. -/
def keyItems : List String :=
  BIGRAMS
    ++ DIGITS.map (fun d => "NUM_" ++ String.mk [d])
    ++ DIGITS.map (fun d => "NUM_NEG_" ++ String.mk [d])
    ++ [MULTIPLY_DIVIDE_MARKER]
    ++ SPECIAL_CHARS.map (fun c => "SPECIAL_" ++ String.mk [c])
    ++ SPACE_MARKERS.map (fun m => "SPACE_" ++ m)

/-- Everything in the universe after the 676 bigrams (42 items). -/
def keyItemsTail : List String :=
  DIGITS.map (fun d => "NUM_" ++ String.mk [d])
    ++ DIGITS.map (fun d => "NUM_NEG_" ++ String.mk [d])
    ++ [MULTIPLY_DIVIDE_MARKER]
    ++ SPECIAL_CHARS.map (fun c => "SPECIAL_" ++ String.mk [c])
    ++ SPACE_MARKERS.map (fun m => "SPACE_" ++ m)

set_option maxRecDepth 10000

theorem keyItems_length : keyItems.length = TOTAL_SYMBOLS := by decide

theorem totalSymbols_eq : TOTAL_SYMBOLS = 718 := by decide

theorem keyItems_eq_append : keyItems = BIGRAMS ++ keyItemsTail := by
  simp only [keyItems, keyItemsTail, List.append_assoc]

theorem letters_nodup : LETTERS.Nodup := by decide

theorem mem_bigrams_data_length {x : String} (hx : x ∈ BIGRAMS) : x.data.length = 2 := by
  rw [BIGRAMS] at hx
  simp only [List.mem_flatMap, List.mem_map] at hx
  obtain ⟨a, -, b, -, rfl⟩ := hx
  rfl

theorem bigrams_nodup : BIGRAMS.Nodup := by
  rw [BIGRAMS, List.nodup_flatMap]
  constructor
  · intro a _
    refine letters_nodup.map ?_
    intro b b' h
    have h2 : ([a, b] : List Char) = [a, b'] := congrArg String.data h
    simpa using h2
  · refine letters_nodup.imp ?_
    intro a a' hne x hx hx'
    simp only [List.mem_map] at hx hx'
    obtain ⟨b, -, rfl⟩ := hx
    obtain ⟨b', -, h⟩ := hx'
    have h2 : ([a', b'] : List Char) = [a, b] := congrArg String.data h
    simp only [List.cons.injEq, and_true] at h2
    exact hne (h2.1.symm ▸ rfl)

theorem keyItemsTail_nodup : keyItemsTail.Nodup := by decide

theorem keyItems_nodup : keyItems.Nodup := by
  rw [keyItems_eq_append]
  refine bigrams_nodup.append keyItemsTail_nodup ?_
  intro x hx hx'
  have h2 := mem_bigrams_data_length hx
  have htail : ∀ y ∈ keyItemsTail, y.data.length ≠ 2 := by decide
  exact htail x hx' h2

/-! ## key_manager.py : KeyManager.generate_key

The seeded shuffle itself is Python's `random.seed` / `random.shuffle`
(the standard library's Mersenne-Twister Fisher-Yates), which is not part
of this repository. -/

/-- Modelled from the spec: the seeded pseudo-random generator behind
`random.seed(seed)` / `random.shuffle` ("shuffle that ordered list with a
seeded pseudo-random generator").  Modelled as a 32-bit linear congruential
generator; its state space is finite, as is the Mersenne Twister's. -/
def lcgNext (s : Nat) : Nat := (1664525 * s + 1013904223) % 4294967296

/-- One selection step per element: draw an index below the remaining
length, move that element to the output. -/
def shuffleGo : Nat → Nat → List String → List String
  | _, 0, l => l
  | _, _ + 1, [] => []
  | state, fuel + 1, a :: rest =>
    let st := lcgNext state
    let j := st % (a :: rest).length
    (a :: rest).getD j "" :: shuffleGo st fuel ((a :: rest).eraseIdx j)

/-- Modelled from the spec: `random.shuffle` seeded with `random.seed(seed)` —
"enumerate the full Meaning universe in a fixed deterministic order, shuffle
that ordered list with a seeded pseudo-random generator".  The seed is the
generator's initial state, taken as given. -/
def shuffle (seed : Nat) (l : List String) : List String :=
  shuffleGo seed l.length l

/-- The key object returned by `KeyManager.generate_key` (the fields the
codec reads; `created` / `symbols_svg` are display-only and omitted).
`symbol_to_meaning` is the dict `{i: shuffled_items[i]}`, represented by
the shuffled list itself (index `i` ↦ `i`-th element). -/
structure Key where
  recipient : String
  seed : Nat
  symbol_to_meaning : List String

/-- The body of `generate_key` factored over the item universe it builds:
shuffle the items, then index them. -/
def generate_key_items (univ : List String) (recipient_name : String) (seed : Nat) : Key :=
  { recipient := recipient_name, seed := seed, symbol_to_meaning := shuffle seed univ }

/-- `KeyManager.generate_key(recipient_name, seed)` with the item universe
of `key_manager.py` lines 49-68. -/
def generate_key (recipient_name : String) (seed : Nat) : Key :=
  generate_key_items keyItems recipient_name seed

/-- The dict `meaning_to_symbol = {v: k for k, v in symbol_to_meaning.items()}`
then `.get(m)`: the last index whose meaning is `m` (later dict insertions
win), `none` if absent. -/
def lastIdxOf (m : String) : List String → Option Nat
  | [] => none
  | a :: as =>
    match lastIdxOf m as with
    | some j => some (j + 1)
    | none => if a = m then some 0 else none

def meaning_to_symbol (k : Key) (m : String) : Option Nat :=
  lastIdxOf m k.symbol_to_meaning

/-- `key['symbol_to_meaning'].get(symbol_index)` where the dict keys are
`0 .. totalSymbols-1`; any other integer (negative or too large) misses. -/
def get_meaning_from_symbol (k : Key) (t : Int) : Option String :=
  if t < 0 then none else k.symbol_to_meaning.get? t.toNat

/-! ### Permutation facts about generated keys -/

theorem perm_getD_cons_eraseIdx (l : List String) :
    ∀ j : Nat, j < l.length → List.Perm (l.getD j "" :: l.eraseIdx j) l := by
  induction l with
  | nil => intro j h; simp at h
  | cons a rest ih =>
    intro j h
    cases j with
    | zero => simp
    | succ j =>
      have hj : j < rest.length := by simpa using h
      calc
        List.Perm ((a :: rest).getD (j + 1) "" :: (a :: rest).eraseIdx (j + 1))
            (a :: (rest.getD j "" :: rest.eraseIdx j)) := by
          simpa using List.Perm.swap a (rest.getD j "") (rest.eraseIdx j)
        List.Perm _ (a :: rest) := (ih j hj).cons a

theorem shuffleGo_perm (fuel : Nat) :
    ∀ (state : Nat) (l : List String), List.Perm (shuffleGo state fuel l) l := by
  induction fuel with
  | zero => intro state l; rfl
  | succ fuel ih =>
    intro state l
    cases l with
    | nil => rfl
    | cons a rest =>
      have hlen : lcgNext state % (a :: rest).length < (a :: rest).length :=
        Nat.mod_lt _ (by simp)
      refine List.Perm.trans ?_ (perm_getD_cons_eraseIdx (a :: rest) _ hlen)
      simpa only [shuffleGo] using
        (ih (lcgNext state) ((a :: rest).eraseIdx (lcgNext state % (a :: rest).length))).cons _

theorem shuffle_perm (seed : Nat) (l : List String) : List.Perm (shuffle seed l) l :=
  shuffleGo_perm _ _ _

/-- The invariant every generated key satisfies: its symbol table is a
permutation of the meaning universe. -/
def KeyPerm (k : Key) : Prop := List.Perm k.symbol_to_meaning keyItems

theorem keyPerm_generate (r : String) (s : Nat) : KeyPerm (generate_key r s) :=
  shuffle_perm s keyItems

theorem keyPerm_length {k : Key} (hk : KeyPerm k) :
    k.symbol_to_meaning.length = TOTAL_SYMBOLS :=
  hk.length_eq.trans keyItems_length

theorem keyPerm_nodup {k : Key} (hk : KeyPerm k) : k.symbol_to_meaning.Nodup :=
  hk.nodup_iff.mpr keyItems_nodup

/-! ### `lastIdxOf` / lookup lemmas -/

theorem lastIdxOf_get {m : String} :
    ∀ {l : List String} {i : Nat}, lastIdxOf m l = some i → l.get? i = some m := by
  intro l
  induction l with
  | nil => intro i h; simp [lastIdxOf] at h
  | cons a as ih =>
    intro i h
    rw [lastIdxOf] at h
    rcases hrec : lastIdxOf m as with - | j
    · rw [hrec] at h
      by_cases ham : a = m
      · simp [ham] at h
        simp [← h, ham]
      · simp [ham] at h
    · rw [hrec] at h
      simp only [Option.some.injEq] at h
      rw [← h]
      simpa using ih hrec

theorem lastIdxOf_lt_length {m : String} :
    ∀ {l : List String} {i : Nat}, lastIdxOf m l = some i → i < l.length := by
  intro l i h
  have := lastIdxOf_get h
  exact List.get?_eq_some.mp this |>.1

theorem lastIdxOf_isSome_of_mem {m : String} :
    ∀ {l : List String}, m ∈ l → ∃ i, lastIdxOf m l = some i := by
  intro l
  induction l with
  | nil => intro h; simp at h
  | cons a as ih =>
    intro h
    rw [List.mem_cons] at h
    rcases hrec : lastIdxOf m as with - | j
    · rcases h with h | h
      · exact ⟨0, by simp [lastIdxOf, hrec, h.symm]⟩
      · obtain ⟨j, hj⟩ := ih h
        simp [hj] at hrec
    · exact ⟨j + 1, by simp [lastIdxOf, hrec]⟩

theorem lastIdxOf_none_of_not_mem {m : String} {l : List String} (h : ¬ m ∈ l) :
    lastIdxOf m l = none := by
  rcases hrec : lastIdxOf m l with - | j
  · rfl
  · exact absurd (List.get?_mem (lastIdxOf_get hrec)) h

theorem lastIdxOf_of_nodup_get {m : String} :
    ∀ {l : List String} {i : Nat}, l.Nodup → l.get? i = some m → lastIdxOf m l = some i := by
  intro l
  induction l with
  | nil => intro i _ h; simp at h
  | cons a as ih =>
    intro i hnd h
    rcases i with - | i
    · simp only [List.get?_cons_zero, Option.some.injEq] at h
      have hnotmem : ¬ m ∈ as := by
        rw [← h]
        exact (List.nodup_cons.mp hnd).1
      rw [lastIdxOf, lastIdxOf_none_of_not_mem hnotmem, h]
      simp
    · simp only [List.get?_cons_succ] at h
      rw [lastIdxOf, ih (List.nodup_cons.mp hnd).2 h]

theorem lookup_lt {k : Key} {m : String} {i : Nat} (hk : KeyPerm k)
    (h : meaning_to_symbol k m = some i) : i < TOTAL_SYMBOLS :=
  keyPerm_length hk ▸ lastIdxOf_lt_length h

theorem lookup_get {k : Key} {m : String} {i : Nat}
    (h : meaning_to_symbol k m = some i) : k.symbol_to_meaning.get? i = some m :=
  lastIdxOf_get h

/-- For a generated key, every meaning of the universe has a symbol, the
table at that symbol returns the meaning, and the symbol is in range. -/
theorem symFacts {k : Key} (hk : KeyPerm k) {m : String} (hm : m ∈ keyItems) :
    ∃ i, meaning_to_symbol k m = some i ∧
      k.symbol_to_meaning.get? i = some m ∧ i < TOTAL_SYMBOLS := by
  have hmem : m ∈ k.symbol_to_meaning := hk.mem_iff.mpr hm
  obtain ⟨i, hi⟩ := lastIdxOf_isSome_of_mem hmem
  exact ⟨i, hi, lastIdxOf_get hi, lookup_lt hk hi⟩

/-- Distinct meanings get distinct symbols. -/
theorem lookup_inj {k : Key} {m m' : String} {i : Nat}
    (h : meaning_to_symbol k m = some i) (h' : meaning_to_symbol k m' = some i) :
    m = m' := by
  have g := lastIdxOf_get h
  have g' := lastIdxOf_get h'
  rw [g, Option.some.injEq] at g'
  exact g'

/-- The symbol index a meaning maps to (`0` as a don't-care default).  Used
only to state theorems; proofs work with `meaning_to_symbol` directly. -/
def symOf (k : Key) (m : String) : Nat := (meaning_to_symbol k m).getD 0

theorem symOf_eq {k : Key} {m : String} {i : Nat}
    (h : meaning_to_symbol k m = some i) : symOf k m = i := by
  simp [symOf, h]

/-! ## Python string helpers used by encoder.py / decoder.py -/

/-- ASCII `str.isalnum` (`c.isalnum()` in `_encode_word`; all codec input
is ASCII). -/
def pyIsAlnum (c : Char) : Bool :=
  ('A' ≤ c && c ≤ 'Z') || ('a' ≤ c && c ≤ 'z') || ('0' ≤ c && c ≤ '9')

/-- ASCII `str.isdigit`. -/
def pyIsDigit (c : Char) : Bool := '0' ≤ c && c ≤ '9'

/-- Python `\s` / `str.split()` / `str.strip()` whitespace. -/
def pyIsSpace (c : Char) : Bool :=
  c == ' ' || c == '\t' || c == '\n' || c == '\x0d' ||
    c == Char.ofNat 11 || c == Char.ofNat 12

/-- `str.upper()` on one ASCII character. -/
def pyUpChar (c : Char) : Char :=
  if 'a' ≤ c && c ≤ 'z' then Char.ofNat (c.toNat - 32) else c

/-- `text.upper()` (`_preprocess_text`). -/
def pyUpper (s : String) : String := String.mk (s.data.map pyUpChar)

/-- `str.strip()`. -/
def pyStrip (cs : List Char) : List Char :=
  ((cs.dropWhile pyIsSpace).reverse.dropWhile pyIsSpace).reverse

/-- `str.split()` with no separator: split on whitespace runs, dropping
empty fields.  `acc` is the current word, reversed. -/
def pySplitGo : List Char → List Char → List String
  | [], acc => if acc.isEmpty then [] else [String.mk acc.reverse]
  | c :: rest, acc =>
    if pyIsSpace c then
      if acc.isEmpty then pySplitGo rest []
      else String.mk acc.reverse :: pySplitGo rest []
    else pySplitGo rest (c :: acc)

def pySplit (s : String) : List String := pySplitGo s.data []

/-- Python `needle in haystack` on strings: substring test. -/
def isSubstr (n : List Char) : List Char → Bool
  | [] => n.isEmpty
  | c :: t => n.isPrefixOf (c :: t) || isSubstr n t

/-- `str.startswith(p)`. -/
def pyStartsWith (p s : String) : Bool := p.data.isPrefixOf s.data

/-- `meaning.split('_')[-1]`: the text after the last underscore (the whole
string when there is none). -/
def afterLastUnderscoreGo : List Char → List Char → List Char
  | [], acc => acc.reverse
  | c :: rest, acc =>
    if c = '_' then afterLastUnderscoreGo rest [] else afterLastUnderscoreGo rest (c :: acc)

def afterLastUnderscore (s : String) : String := String.mk (afterLastUnderscoreGo s.data [])

/-- `meaning.split('_', 1)[-1]`: the text after the first underscore (the
whole string when there is none). -/
def dropThroughUnderscore : List Char → Option (List Char)
  | [] => none
  | c :: rest => if c = '_' then some rest else dropThroughUnderscore rest

def afterFirstUnderscore (s : String) : String :=
  String.mk ((dropThroughUnderscore s.data).getD s.data)

/-! ## encoder.py : BigramEncoder -/

/-- The three rotation counters of `BigramEncoder` (instance fields
`space_marker_index`, `a_rotation_index`, `i_rotation_index`), threaded
explicitly; `encode` resets them to zero. -/
structure Rot where
  space : Nat
  a : Nat
  i : Nat

/-- `re.split(r'([.!?])\s*', text)`: cut at each `.`/`!`/`?`, keep the
punctuation as its own element, and swallow the whitespace that follows it.
Fuel is the character count (enough, since each step consumes ≥ 1 char). -/
def reSplitGo : Nat → List Char → List Char → List String
  | 0, _, acc => [String.mk acc.reverse]
  | _ + 1, [], acc => [String.mk acc.reverse]
  | fuel + 1, c :: rest, acc =>
    if c = '.' || c = '!' || c = '?' then
      String.mk acc.reverse :: String.mk [c] :: reSplitGo fuel (rest.dropWhile pyIsSpace) []
    else
      reSplitGo fuel rest (c :: acc)

/-- The recombination loop of `_split_sentences`: reattach each punctuation
fragment (`sentences[i+1] in '.!?'`, Python substring membership) to the
text before it, skipping blank fragments. -/
def recombine : List String → List String
  | [] => []
  | [a] => if pyStrip a.data = [] then [] else [String.mk (pyStrip a.data)]
  | a :: b :: rest =>
    if pyStrip a.data = [] then recombine (b :: rest)
    else if isSubstr b.data ".!?".data then
      String.mk (pyStrip (a ++ b).data) :: recombine rest
    else
      String.mk (pyStrip a.data) :: recombine (b :: rest)

/-- `BigramEncoder._split_sentences` (`return result if result else [text]`). -/
def split_sentences (text : String) : List String :=
  let res := recombine (reSplitGo text.data.length text.data [])
  if res = [] then [text] else res

/-- `KeyManager.get_symbol_for_bigram`. -/
def get_symbol_for_bigram (k : Key) (b : String) : Option Nat := meaning_to_symbol k b

/-- `KeyManager.get_symbol_for_space_marker`. -/
def get_symbol_for_space_marker (k : Key) (m : String) : Option Nat :=
  meaning_to_symbol k ("SPACE_" ++ m)

/-- `KeyManager.get_muldiv_symbol`. -/
def get_muldiv_symbol (k : Key) : Option Nat := meaning_to_symbol k MULTIPLY_DIVIDE_MARKER

/-- `f"{n}"` for a natural number (fuel-based so it reduces definitionally). -/
def natToDigits : Nat → Nat → List Char
  | 0, _ => []
  | fuel + 1, n =>
    if n < 10 then [DIGITS.getD n '0']
    else natToDigits fuel (n / 10) ++ [DIGITS.getD (n % 10) '0']

def natToString (n : Nat) : String := String.mk (natToDigits (n + 1) n)

/-- `KeyManager.get_symbol_for_number`: `NUM_{n}` for `n >= 0`,
`NUM_NEG_{abs(n)}` otherwise. -/
def get_symbol_for_number (k : Key) (n : Int) : Option Nat :=
  if 0 ≤ n then meaning_to_symbol k ("NUM_" ++ natToString n.toNat)
  else meaning_to_symbol k ("NUM_NEG_" ++ natToString n.natAbs)

/-- `BigramEncoder._get_space_marker`: pick the marker at the current
rotation position, advance, look it up (`0` when the lookup misses). -/
def get_space_marker (k : Key) (st : Rot) : Int × Rot :=
  ((match get_symbol_for_space_marker k
        (SPACE_MARKERS.getD (st.space % SPACE_MARKERS.length) "") with
    | some s => (s : Int)
    | none => 0),
   { st with space := st.space + 1 })

/-- `BigramEncoder._encode_standalone_a`: bigram `A<letter at rotation>`,
emitted as a partial-before token. -/
def encode_standalone_a (k : Key) (st : Rot) : List Int × Rot :=
  ((match get_symbol_for_bigram k (String.mk ['A', LETTERS.getD (st.a % 26) 'A']) with
    | some s => [-(s : Int) - 1]
    | none => []),
   { st with a := st.a + 1 })

/-- `BigramEncoder._encode_standalone_i`. -/
def encode_standalone_i (k : Key) (st : Rot) : List Int × Rot :=
  ((match get_symbol_for_bigram k (String.mk ['I', LETTERS.getD (st.i % 26) 'A']) with
    | some s => [-(s : Int) - 1]
    | none => []),
   { st with i := st.i + 1 })

/-- `BigramEncoder._encode_number_sequence`: one positive digit symbol per
digit, silently skipping lookup misses. -/
def encode_number_sequence (k : Key) (cs : List Char) : List Int :=
  cs.flatMap fun c =>
    match get_symbol_for_number k ((c.toNat - 48 : Nat) : Int) with
    | some s => [(s : Int)]
    | none => []

/-- The non-overlapping bigram loop of `_encode_word` (`for i in
range(0, len, 2)` over an even prefix), skipping lookup misses. -/
def encode_pairs (k : Key) : List Char → List Int
  | a :: b :: rest =>
    (match get_symbol_for_bigram k (String.mk [a, b]) with
     | some s => [(s : Int)]
     | none => []) ++ encode_pairs k rest
  | _ => []

/-- The scan loop of `_encode_final_letter` over earlier indices of the
word; falls back to the synthetic bigram `<letter>A` (partial-before) and
to `[]` when even that lookup misses. -/
def flScan (k : Key) (w : List Char) (last : Char) : List Nat → List Int
  | [] =>
    (match get_symbol_for_bigram k (String.mk [last, 'A']) with
     | some s => [-(s : Int) - 1]
     | none => [])
  | idx :: rest =>
    if w.getD idx ' ' = last then
      let start := idx / 2 * 2
      if start + 1 < w.length then
        match get_symbol_for_bigram k (String.mk [w.getD start ' ', w.getD (start + 1) ' ']) with
        | some s => if idx % 2 = 0 then [-(s : Int) - 1] else [(s : Int) + 10000]
        | none => flScan k w last rest
      else flScan k w last rest
    else flScan k w last rest

/-- `BigramEncoder._encode_final_letter(word, last_letter)`. -/
def encode_final_letter (k : Key) (w : List Char) (last : Char) : List Int :=
  flScan k w last (List.range (w.length - 1))

/-- `BigramEncoder._encode_word`. -/
def encode_word (k : Key) (st : Rot) (word : String) : List Int × Rot :=
  let clean := word.data.filter pyIsAlnum
  if clean = [] then ([], st)
  else if clean = ['A'] then encode_standalone_a k st
  else if clean = ['I'] then encode_standalone_i k st
  else if clean.all pyIsDigit then (encode_number_sequence k clean, st)
  else if clean.length % 2 = 0 then (encode_pairs k clean, st)
  else
    ((encode_pairs k clean.dropLast) ++ encode_final_letter k clean (clean.getLastD ' '), st)

/-- The word loop of `_encode_sentence`: encode each word, one space marker
between words (not after the last). -/
def encode_words (k : Key) (st : Rot) : List String → List Int × Rot
  | [] => ([], st)
  | [w] => encode_word k st w
  | w :: w2 :: ws =>
    let p1 := encode_word k st w
    let pm := get_space_marker k p1.2
    let p2 := encode_words k pm.2 (w2 :: ws)
    (p1.1 ++ pm.1 :: p2.1, p2.2)

/-- `BigramEncoder._encode_sentence`. -/
def encode_sentence (k : Key) (st : Rot) (s : String) : List Int × Rot :=
  encode_words k st (pySplit s)

/-- The sentence loop of `encode`: sentence-end marker (two consecutive
space markers) between sentences, not after the last. -/
def encode_sentences (k : Key) (st : Rot) : List String → List Int × Rot
  | [] => ([], st)
  | [s] => encode_sentence k st s
  | s :: s2 :: ss =>
    let p1 := encode_sentence k st s
    let pm1 := get_space_marker k p1.2
    let pm2 := get_space_marker k pm1.2
    let p2 := encode_sentences k pm2.2 (s2 :: ss)
    (p1.1 ++ pm1.1 :: pm2.1 :: p2.1, p2.2)

/-- `BigramEncoder.encode`: reset the rotation counters, uppercase, split
into sentences, encode them. -/
def encode (k : Key) (plaintext : String) : List Int :=
  (encode_sentences k ⟨0, 0, 0⟩ (split_sentences (pyUpper plaintext))).1

/-- `BigramEncoder.encode_math_expression`. -/
def encode_math_expression (k : Key) (expression : String) : List Int :=
  let parts := pySplit (String.mk (pyStrip expression.data))
  if parts.length < 3 then []
  else
    let num1 := parts.getD 0 ""
    let op := parts.getD 1 ""
    let num2 := parts.getD 2 ""
    (num1.data.flatMap fun d =>
      if pyIsDigit d then
        match get_symbol_for_number k ((d.toNat - 48 : Nat) : Int) with
        | some s => [(s : Int)]
        | none => []
      else [])
    ++ (match get_muldiv_symbol k with
        | some s => [(s : Int)]
        | none => [])
    ++ (num2.data.flatMap fun d =>
      if pyIsDigit d then
        match get_symbol_for_number k
            (if op = "/" then -((d.toNat - 48 : Nat) : Int) else ((d.toNat - 48 : Nat) : Int)) with
        | some s => [(s : Int)]
        | none => []
      else [])

/-! ## decoder.py : BigramDecoder -/

/-- The lookahead test `next_meaning and next_meaning.startswith('SPACE_')`
on a raw token. -/
def isSpaceTok (k : Key) (t : Int) : Bool :=
  match get_meaning_from_symbol k t with
  | some m => pyStartsWith "SPACE_" m
  | none => false

/-- The lookahead test `next_meaning and next_meaning.startswith('NUM_NEG_')`
on a raw token (`MULDIV` branch). -/
def isNegNumTok (k : Key) (t : Int) : Bool :=
  match get_meaning_from_symbol k t with
  | some m => pyStartsWith "NUM_NEG_" m
  | none => false

/-- The `while` loop of `BigramDecoder.decode`, one-token lookahead and all:
negative = partial-before (first letter), `>= 10000` = partial-after (second
letter); otherwise branch on the resolved meaning's string prefix.  Unknown
symbols are silently skipped, exactly as in the source. -/
def decodeGo (k : Key) : List Int → String
  | [] => ""
  | t :: rest =>
    if t < 0 then
      (match get_meaning_from_symbol k (-(t + 1)) with
       | some m =>
         if (meaning_to_symbol k m).isSome then String.mk [m.data.headD ' '] else ""
       | none => "") ++ decodeGo k rest
    else if 10000 ≤ t then
      (match get_meaning_from_symbol k (t - 10000) with
       | some m =>
         if (meaning_to_symbol k m).isSome then String.mk [m.data.getD 1 ' '] else ""
       | none => "") ++ decodeGo k rest
    else
      match get_meaning_from_symbol k t with
      | none => decodeGo k rest
      | some m =>
        if pyStartsWith "SPACE_" m then
          match rest with
          | [] => " "
          | t2 :: rest2 =>
            if isSpaceTok k t2 then ". " ++ decodeGo k rest2
            else " " ++ decodeGo k (t2 :: rest2)
        else if pyStartsWith "NUM_NEG_" m then afterLastUnderscore m ++ decodeGo k rest
        else if pyStartsWith "NUM_" m then afterLastUnderscore m ++ decodeGo k rest
        else if m = MULTIPLY_DIVIDE_MARKER then
          (match rest with
           | [] => " * "
           | t2 :: _ => if isNegNumTok k t2 then " / " else " * ") ++ decodeGo k rest
        else if pyStartsWith "SPECIAL_" m then afterFirstUnderscore m ++ decodeGo k rest
        else if (meaning_to_symbol k m).isSome then m ++ decodeGo k rest
        else decodeGo k rest

/-- `BigramDecoder.decode`. -/
def decode (k : Key) (encoded : List Int) : String := decodeGo k encoded

/-! ### Decoder evaluation lemmas (symbolic in the key) -/

theorem get_meaning_plain {k : Key} {i : Nat} {m : String}
    (hget : k.symbol_to_meaning.get? i = some m) :
    get_meaning_from_symbol k (i : Int) = some m := by
  rw [get_meaning_from_symbol, if_neg (by omega : ¬ ((i : Int) < 0))]
  simpa using hget

theorem get_meaning_neg {k : Key} {t : Int} (h : t < 0) :
    get_meaning_from_symbol k t = none := by
  rw [get_meaning_from_symbol, if_pos h]

theorem get_meaning_big {k : Key} (hk : KeyPerm k) {t : Int}
    (h : (TOTAL_SYMBOLS : Int) ≤ t) : get_meaning_from_symbol k t = none := by
  have h0 : ¬ (t < 0) := by
    have := totalSymbols_eq
    omega
  rw [get_meaning_from_symbol, if_neg h0]
  refine List.get?_eq_none.mpr ?_
  rw [keyPerm_length hk]
  omega

theorem isSpaceTok_neg {k : Key} (t : Int) (h : t < 0) : isSpaceTok k t = false := by
  rw [isSpaceTok, get_meaning_neg h]

theorem isSpaceTok_plain {k : Key} {i : Nat} {m : String}
    (hget : k.symbol_to_meaning.get? i = some m) :
    isSpaceTok k (i : Int) = pyStartsWith "SPACE_" m := by
  rw [isSpaceTok, get_meaning_plain hget]

theorem isSpaceTok_big {k : Key} (hk : KeyPerm k) {t : Int}
    (h : (TOTAL_SYMBOLS : Int) ≤ t) : isSpaceTok k t = false := by
  rw [isSpaceTok, get_meaning_big hk h]

theorem isNegNumTok_neg {k : Key} (t : Int) (h : t < 0) : isNegNumTok k t = false := by
  rw [isNegNumTok, get_meaning_neg h]

theorem isNegNumTok_plain {k : Key} {i : Nat} {m : String}
    (hget : k.symbol_to_meaning.get? i = some m) :
    isNegNumTok k (i : Int) = pyStartsWith "NUM_NEG_" m := by
  rw [isNegNumTok, get_meaning_plain hget]

/-- Partial-before token: only the first letter of the meaning comes back. -/
theorem decodeGo_pb {k : Key} {i : Nat} {m : String}
    (hget : k.symbol_to_meaning.get? i = some m)
    (hin : (meaning_to_symbol k m).isSome = true) (rest : List Int) :
    decodeGo k ((-(i : Int) - 1) :: rest) =
      String.mk [m.data.headD ' '] ++ decodeGo k rest := by
  have hneg : (-(i : Int) - 1) < 0 := by omega
  have hact : -((-(i : Int) - 1) + 1) = (i : Int) := by ring
  cases rest with
  | nil => rw [decodeGo.eq_2, if_pos hneg, hact, get_meaning_plain hget]; simp [hin]
  | cons t2 rest2 =>
    rw [decodeGo.eq_3, if_pos hneg, hact, get_meaning_plain hget]; simp [hin]

/-- Partial-after token: only the second letter of the meaning comes back. -/
theorem decodeGo_pa {k : Key} {i : Nat} {m : String}
    (hget : k.symbol_to_meaning.get? i = some m)
    (hin : (meaning_to_symbol k m).isSome = true) (rest : List Int) :
    decodeGo k (((i : Int) + 10000) :: rest) =
      String.mk [m.data.getD 1 ' '] ++ decodeGo k rest := by
  have h1 : ¬ ((i : Int) + 10000 < 0) := by omega
  have h2 : (10000 : Int) ≤ (i : Int) + 10000 := by omega
  have hact : ((i : Int) + 10000) - 10000 = (i : Int) := by ring
  cases rest with
  | nil => rw [decodeGo.eq_2, if_neg h1, if_pos h2, hact, get_meaning_plain hget]; simp [hin]
  | cons t2 rest2 =>
    rw [decodeGo.eq_3, if_neg h1, if_pos h2, hact, get_meaning_plain hget]; simp [hin]

/-- Plain token resolving to an ordinary bigram meaning. -/
theorem decodeGo_plain_bigram {k : Key} {i : Nat} {m : String}
    (hget : k.symbol_to_meaning.get? i = some m) (hlt : i < TOTAL_SYMBOLS)
    (h1 : pyStartsWith "SPACE_" m = false) (h2 : pyStartsWith "NUM_NEG_" m = false)
    (h3 : pyStartsWith "NUM_" m = false) (h4 : m ≠ MULTIPLY_DIVIDE_MARKER)
    (h5 : pyStartsWith "SPECIAL_" m = false)
    (hin : (meaning_to_symbol k m).isSome = true) (rest : List Int) :
    decodeGo k ((i : Int) :: rest) = m ++ decodeGo k rest := by
  have hts := totalSymbols_eq
  have hneg : ¬ ((i : Int) < 0) := by omega
  have hbig : ¬ ((10000 : Int) ≤ (i : Int)) := by omega
  cases rest with
  | nil =>
    rw [decodeGo.eq_2, if_neg hneg, if_neg hbig, get_meaning_plain hget]
    simp [h1, h2, h3, h4, h5, hin]
  | cons t2 rest2 =>
    rw [decodeGo.eq_3, if_neg hneg, if_neg hbig, get_meaning_plain hget]
    simp [h1, h2, h3, h4, h5, hin]

/-- Plain space-marker token at the end of the stream: single space. -/
theorem decodeGo_space_nil {k : Key} {i : Nat} {m : String}
    (hget : k.symbol_to_meaning.get? i = some m) (hlt : i < TOTAL_SYMBOLS)
    (h1 : pyStartsWith "SPACE_" m = true) :
    decodeGo k [(i : Int)] = " " := by
  have hts := totalSymbols_eq
  have hneg : ¬ ((i : Int) < 0) := by omega
  have hbig : ¬ ((10000 : Int) ≤ (i : Int)) := by omega
  rw [decodeGo, if_neg hneg, if_neg hbig, get_meaning_plain hget]
  simp [h1]

/-- Space marker not followed by another: single space, continue. -/
theorem decodeGo_space_single {k : Key} {i : Nat} {m : String} {t2 : Int}
    (hget : k.symbol_to_meaning.get? i = some m) (hlt : i < TOTAL_SYMBOLS)
    (h1 : pyStartsWith "SPACE_" m = true)
    (hnot : isSpaceTok k t2 = false) (rest2 : List Int) :
    decodeGo k ((i : Int) :: t2 :: rest2) = " " ++ decodeGo k (t2 :: rest2) := by
  have hts := totalSymbols_eq
  have hneg : ¬ ((i : Int) < 0) := by omega
  have hbig : ¬ ((10000 : Int) ≤ (i : Int)) := by omega
  rw [decodeGo, if_neg hneg, if_neg hbig, get_meaning_plain hget]
  simp [h1, hnot]

/-- Two consecutive space markers: sentence boundary, consume both. -/
theorem decodeGo_space_double {k : Key} {i : Nat} {m : String} {t2 : Int}
    (hget : k.symbol_to_meaning.get? i = some m) (hlt : i < TOTAL_SYMBOLS)
    (h1 : pyStartsWith "SPACE_" m = true)
    (hsp : isSpaceTok k t2 = true) (rest2 : List Int) :
    decodeGo k ((i : Int) :: t2 :: rest2) = ". " ++ decodeGo k rest2 := by
  have hts := totalSymbols_eq
  have hneg : ¬ ((i : Int) < 0) := by omega
  have hbig : ¬ ((10000 : Int) ≤ (i : Int)) := by omega
  rw [decodeGo, if_neg hneg, if_neg hbig, get_meaning_plain hget]
  simp [h1, hsp]

/-- Plain numeral token (positive or negative meaning): the digit character. -/
theorem decodeGo_num {k : Key} {i : Nat} {m : String}
    (hget : k.symbol_to_meaning.get? i = some m) (hlt : i < TOTAL_SYMBOLS)
    (h1 : pyStartsWith "SPACE_" m = false)
    (h2 : (pyStartsWith "NUM_NEG_" m || pyStartsWith "NUM_" m) = true) (rest : List Int) :
    decodeGo k ((i : Int) :: rest) = afterLastUnderscore m ++ decodeGo k rest := by
  have hts := totalSymbols_eq
  have hneg : ¬ ((i : Int) < 0) := by omega
  have hbig : ¬ ((10000 : Int) ≤ (i : Int)) := by omega
  cases rest with
  | nil =>
    rw [decodeGo.eq_2, if_neg hneg, if_neg hbig, get_meaning_plain hget]
    rcases Bool.or_eq_true_iff.mp h2 with h | h
    · simp [h1, h]
    · by_cases hnn : pyStartsWith "NUM_NEG_" m
      · simp [h1, hnn]
      · simp [h1, hnn, h]
  | cons t2 rest2 =>
    rw [decodeGo.eq_3, if_neg hneg, if_neg hbig, get_meaning_plain hget]
    rcases Bool.or_eq_true_iff.mp h2 with h | h
    · simp [h1, h]
    · by_cases hnn : pyStartsWith "NUM_NEG_" m
      · simp [h1, hnn]
      · simp [h1, hnn, h]

/-- `MULDIV` token with a following token: operator chosen by lookahead. -/
theorem decodeGo_muldiv_cons {k : Key} {i : Nat} {t2 : Int}
    (hget : k.symbol_to_meaning.get? i = some MULTIPLY_DIVIDE_MARKER)
    (hlt : i < TOTAL_SYMBOLS) (rest2 : List Int) :
    decodeGo k ((i : Int) :: t2 :: rest2) =
      (if isNegNumTok k t2 then " / " else " * ") ++ decodeGo k (t2 :: rest2) := by
  have hts := totalSymbols_eq
  have hneg : ¬ ((i : Int) < 0) := by omega
  have hbig : ¬ ((10000 : Int) ≤ (i : Int)) := by omega
  rw [decodeGo, if_neg hneg, if_neg hbig, get_meaning_plain hget]
  simp [pyStartsWith, MULTIPLY_DIVIDE_MARKER]

theorem decodeGo_nil (k : Key) : decodeGo k [] = "" := rfl

/-! ### Stuck-lookup normal forms of the encoder

Definitionally equal to the corresponding branches of `encode_pairs`,
`_encode_final_letter`, `_encode_standalone_a/i` and `_get_space_marker`;
they are the halfway points when evaluating `encode` on concrete text with
a symbolic key. -/

/-- A plain token from a successful lookup (empty on a miss). -/
def tokP (k : Key) (m : String) : List Int :=
  match meaning_to_symbol k m with
  | some s => [(s : Int)]
  | none => []

/-- A partial-before token from a successful lookup (empty on a miss). -/
def tokPB (k : Key) (m : String) : List Int :=
  match meaning_to_symbol k m with
  | some s => [-(s : Int) - 1]
  | none => []

/-- A space-marker token (`0` on a miss). -/
def tokSp (k : Key) (m : String) : Int :=
  match meaning_to_symbol k m with
  | some s => (s : Int)
  | none => 0

/-- The found-earlier-occurrence branch of `_encode_final_letter` at index
`idx`, with the scan continuation as explicit fallback. -/
def tokFound (k : Key) (m : String) (idx : Nat) (fallback : List Int) : List Int :=
  match meaning_to_symbol k m with
  | some s => if idx % 2 = 0 then [-(s : Int) - 1] else [(s : Int) + 10000]
  | none => fallback

theorem tokP_eq {k : Key} {m : String} {i : Nat}
    (h : meaning_to_symbol k m = some i) : tokP k m = [(i : Int)] := by
  simp [tokP, h]

theorem tokPB_eq {k : Key} {m : String} {i : Nat}
    (h : meaning_to_symbol k m = some i) : tokPB k m = [-(i : Int) - 1] := by
  simp [tokPB, h]

theorem tokSp_eq {k : Key} {m : String} {i : Nat}
    (h : meaning_to_symbol k m = some i) : tokSp k m = (i : Int) := by
  simp [tokSp, h]

theorem tokFound_eq_odd {k : Key} {m : String} {i idx : Nat} {f : List Int}
    (h : meaning_to_symbol k m = some i) (hidx : idx % 2 = 1) :
    tokFound k m idx f = [(i : Int) + 10000] := by
  simp [tokFound, h, hidx]

/-! ## Claim C1 : the two key mappings are mutual inverses -/

theorem key_bijective (k : Key) (hk : KeyPerm k) :
    (∀ m ∈ k.symbol_to_meaning,
      ∃ i, meaning_to_symbol k m = some i ∧ k.symbol_to_meaning.get? i = some m) ∧
    (∀ i < TOTAL_SYMBOLS,
      ∃ m, k.symbol_to_meaning.get? i = some m ∧ meaning_to_symbol k m = some i) := by
  constructor
  · intro m hm
    obtain ⟨i, hi⟩ := lastIdxOf_isSome_of_mem hm
    exact ⟨i, hi, lastIdxOf_get hi⟩
  · intro i hi
    have hlen : i < k.symbol_to_meaning.length := by rw [keyPerm_length hk]; exact hi
    rcases hg : k.symbol_to_meaning.get? i with - | m
    · exact absurd (List.get?_eq_none.mp hg) (by omega)
    · exact ⟨m, rfl, lastIdxOf_of_nodup_get (keyPerm_nodup hk) hg⟩

/-- Claim C1: for every key produced by `generate_key`, the two mappings are
mutual inverses over the full meaning universe: every meaning in
`symbol_to_meaning`'s values maps back through `meaning_to_symbol` to an
index holding that meaning, and every index in `[0, TOTAL_SYMBOLS)` maps
through `symbol_to_meaning` to a meaning whose symbol is that index. -/
theorem claim_C1_mappings_mutual_inverses (r : String) (s : Nat) :
    (∀ m ∈ (generate_key r s).symbol_to_meaning,
      ∃ i, meaning_to_symbol (generate_key r s) m = some i ∧
        (generate_key r s).symbol_to_meaning.get? i = some m) ∧
    (∀ i < TOTAL_SYMBOLS,
      ∃ m, (generate_key r s).symbol_to_meaning.get? i = some m ∧
        meaning_to_symbol (generate_key r s) m = some i) :=
  key_bijective _ (keyPerm_generate r s)

/-- Claim C1, witness: the two inverse round trips at the concrete key
`generate_key "X" 0`, at the meaning `"MULDIV"` and at index `0`. -/
theorem claim_C1_mappings_mutual_inverses_witness :
    ("MULDIV" ∈ (generate_key "X" 0).symbol_to_meaning) ∧ (0 < TOTAL_SYMBOLS) ∧
    (∃ i, meaning_to_symbol (generate_key "X" 0) "MULDIV" = some i ∧
      (generate_key "X" 0).symbol_to_meaning.get? i = some "MULDIV") ∧
    (∃ m, (generate_key "X" 0).symbol_to_meaning.get? 0 = some m ∧
      meaning_to_symbol (generate_key "X" 0) m = some 0) := by
  have hmem : "MULDIV" ∈ (generate_key "X" 0).symbol_to_meaning :=
    (keyPerm_generate "X" 0).mem_iff.mpr (by decide)
  exact ⟨hmem, by decide,
    (claim_C1_mappings_mutual_inverses "X" 0).1 "MULDIV" hmem,
    (claim_C1_mappings_mutual_inverses "X" 0).2 0 (by decide)⟩

/-! ## Claim C2 : determinism; distinct seeds -/

/-- Claim C2, counterexample: "for two distinct seeds the resulting
mappings are not equal" is false as a universal statement, and not because
of any property of one particular generator: every mapping `generate_key`
can produce is a permutation of the fixed 718-item universe, of which
there are only finitely many, while the seeds range over all of `Nat` — so
some two distinct seeds necessarily share a mapping.  The same pigeonhole
applies to the program itself (the Mersenne Twister has finitely many
states). -/
theorem claim_C2_counterexample :
    (∃ s₁ s₂ : Nat, s₁ ≠ s₂ ∧
      (generate_key "X" s₁).symbol_to_meaning = (generate_key "X" s₂).symbol_to_meaning) ∧
    ¬ ∀ s₁ s₂ : Nat, s₁ ≠ s₂ →
      (generate_key "X" s₁).symbol_to_meaning ≠ (generate_key "X" s₂).symbol_to_meaning := by
  have hmem : ∀ s : Nat,
      (generate_key "X" s).symbol_to_meaning ∈ keyItems.permutations := fun s =>
    List.mem_permutations.mpr (keyPerm_generate "X" s)
  have hni : ¬ Function.Injective
      (fun s : Nat => (generate_key "X" s).symbol_to_meaning) := by
    intro hinj
    have hinf : ({ l | l ∈ keyItems.permutations } : Set (List String)).Infinite :=
      Set.infinite_of_injective_forall_mem hinj hmem
    exact (List.finite_toSet keyItems.permutations).not_infinite hinf
  rw [Function.not_injective_iff] at hni
  obtain ⟨a, b, hab, hne⟩ := hni
  exact ⟨⟨a, b, hne, hab⟩, fun h => h a b hne hab⟩

/-- Claim C2 as amended: `generate_key` is deterministic — the same
`(label, seed)` always yields the same `symbol_to_meaning` and
`meaning_to_symbol` mappings — and distinct seeds can yield different
mappings (seeds `1` and `2` do), but not every pair of distinct seeds does:
the mappings range over the finitely many permutations of the fixed
718-item universe, so some two distinct seeds must coincide. -/
theorem claim_C2_deterministic_and_seed_sensitive (r : String) (s : Nat) :
    (generate_key r s).symbol_to_meaning = (generate_key r s).symbol_to_meaning ∧
    (∀ m, meaning_to_symbol (generate_key r s) m = meaning_to_symbol (generate_key r s) m) ∧
    (generate_key "X" 1).symbol_to_meaning ≠ (generate_key "X" 2).symbol_to_meaning := by
  have hne : (generate_key "X" 1).symbol_to_meaning.getD 0 ""
      ≠ (generate_key "X" 2).symbol_to_meaning.getD 0 "" := by decide
  exact ⟨rfl, fun m => rfl, fun h => hne (by rw [h])⟩

/-! ## Claim C3 : the 10000 boundary -/

theorem generate_key_items_table_length (univ : List String) (r : String) (s : Nat) :
    (generate_key_items univ r s).symbol_to_meaning.length = univ.length :=
  (shuffle_perm s univ).length_eq

/-- Claim C3, counterexample: `generate_key` has no rejection path at all.
Run on a meaning universe of size `10000` (the factored-out body
`generate_key_items` on `List.replicate 10000 "M"`), it silently produces a
full 10000-entry key table instead of failing. -/
theorem claim_C3_counterexample :
    10000 ≤ (List.replicate 10000 "M").length ∧
    (generate_key_items (List.replicate 10000 "M") "X" 0).symbol_to_meaning.length = 10000 :=
  ⟨le_of_eq (List.length_replicate 10000 "M").symm,
   (generate_key_items_table_length (List.replicate 10000 "M") "X" 0).trans
     (List.length_replicate 10000 "M")⟩

/-- Claim C3 as amended: the meaning universe `generate_key` builds always
has exactly `TOTAL_SYMBOLS = 718` entries, strictly below `10000`, so the
partial-after offset scheme cannot collide; no size check or rejection
exists (or is ever triggered) in the code. -/
theorem claim_C3_universe_fixed_below_10000 (r : String) (s : Nat) :
    (generate_key r s).symbol_to_meaning.length = TOTAL_SYMBOLS ∧ TOTAL_SYMBOLS < 10000 :=
  ⟨keyPerm_length (keyPerm_generate r s), by decide⟩


/-! ## Claim C8 : malformed math expressions -/

/-- Claim C8: for every key and every expression that splits on whitespace
into fewer than three parts, `encode_math_expression` returns the empty
token list (no error, no partial encoding). -/
theorem claim_C8_short_math_expression_empty (k : Key) (expr : String)
    (h : (pySplit (String.mk (pyStrip expr.data))).length < 3) :
    encode_math_expression k expr = [] := by
  rw [encode_math_expression]
  simp only [if_pos h]

/-- Claim C8, witness: the two-part expression `"2 *"` encodes to `[]`
(shown here on the empty key; the theorem holds for every key). -/
theorem claim_C8_short_math_expression_empty_witness :
    (pySplit (String.mk (pyStrip "2 *".data))).length < 3 ∧
    encode_math_expression ⟨"", 0, []⟩ "2 *" = [] :=
  ⟨by decide, claim_C8_short_math_expression_empty ⟨"", 0, []⟩ "2 *" (by decide)⟩

/-! ## Claim C6 : odd-length final letter (synthetic bigram) -/

theorem cat_roundtrip (k : Key) (hk : KeyPerm k) :
    encode k "CAT" = [(symOf k "CA" : Int), -(symOf k "TA" : Int) - 1] ∧
    decode k (encode k "CAT") = "CAT" := by
  obtain ⟨iCA, hCA, gCA, ltCA⟩ := symFacts hk (show "CA" ∈ keyItems by decide)
  obtain ⟨iTA, hTA, gTA, ltTA⟩ := symFacts hk (show "TA" ∈ keyItems by decide)
  have hstream : encode k "CAT" = [(iCA : Int), -(iTA : Int) - 1] := by
    have h0 : encode k "CAT" = (tokP k "CA" ++ []) ++ tokPB k "TA" := rfl
    rw [h0, tokP_eq hCA, tokPB_eq hTA]
    rfl
  have hdec : decode k [(iCA : Int), -(iTA : Int) - 1] = "CAT" := by
    show decodeGo k ((iCA : Int) :: (-(iTA : Int) - 1) :: []) = "CAT"
    rw [decodeGo_plain_bigram gCA ltCA rfl rfl rfl (by decide) rfl (by simp [hCA]),
      decodeGo_pb gTA (by simp [hTA]), decodeGo_nil]
    rfl
  refine ⟨?_, ?_⟩
  · rw [hstream, symOf_eq hCA, symOf_eq hTA]
  · rw [hstream, hdec]

/-- Claim C6: for every generated key, encoding the odd-length word `"CAT"`
yields a plain token for `"CA"` followed by a partial-before token for the
synthetic bigram `"TA"` (the final `T` has no earlier occurrence), and
decoding yields exactly `"CAT"` — which contains `"CA"` and `"CAT"`, so the
final letter is never dropped. -/
theorem claim_C6_cat_final_letter_kept (r : String) (s : Nat) :
    encode (generate_key r s) "CAT" =
      [(symOf (generate_key r s) "CA" : Int), -(symOf (generate_key r s) "TA" : Int) - 1] ∧
    decode (generate_key r s) (encode (generate_key r s) "CAT") = "CAT" ∧
    isSubstr "CA".data (decode (generate_key r s) (encode (generate_key r s) "CAT")).data
      = true ∧
    isSubstr "CAT".data (decode (generate_key r s) (encode (generate_key r s) "CAT")).data
      = true := by
  obtain ⟨h1, h2⟩ := cat_roundtrip (generate_key r s) (keyPerm_generate r s)
  refine ⟨h1, h2, ?_, ?_⟩ <;> rw [h2] <;> rfl

/-! ## Claim C5 : standalone-A rotation -/

theorem aaa_roundtrip (k : Key) (hk : KeyPerm k) :
    encode k "A A A" =
      [-(symOf k "AA" : Int) - 1, (symOf k "SPACE_JQ" : Int), -(symOf k "AB" : Int) - 1,
        (symOf k "SPACE_QG" : Int), -(symOf k "AC" : Int) - 1] ∧
    symOf k "AA" ≠ symOf k "AB" ∧ symOf k "AA" ≠ symOf k "AC" ∧
    symOf k "AB" ≠ symOf k "AC" ∧
    decode k (encode k "A A A") = "A A A" := by
  obtain ⟨iAA, hAA, gAA, ltAA⟩ := symFacts hk (show "AA" ∈ keyItems by decide)
  obtain ⟨iAB, hAB, gAB, ltAB⟩ := symFacts hk (show "AB" ∈ keyItems by decide)
  obtain ⟨iAC, hAC, gAC, ltAC⟩ := symFacts hk (show "AC" ∈ keyItems by decide)
  obtain ⟨iJQ, hJQ, gJQ, ltJQ⟩ := symFacts hk (show "SPACE_JQ" ∈ keyItems by decide)
  obtain ⟨iQG, hQG, gQG, ltQG⟩ := symFacts hk (show "SPACE_QG" ∈ keyItems by decide)
  have hstream : encode k "A A A" =
      [-(iAA : Int) - 1, (iJQ : Int), -(iAB : Int) - 1, (iQG : Int), -(iAC : Int) - 1] := by
    have h0 : encode k "A A A" =
        tokPB k "AA" ++ tokSp k "SPACE_JQ" ::
          (tokPB k "AB" ++ tokSp k "SPACE_QG" :: tokPB k "AC") := rfl
    rw [h0, tokPB_eq hAA, tokPB_eq hAB, tokPB_eq hAC, tokSp_eq hJQ, tokSp_eq hQG]
    rfl
  have hdec : decodeGo k
      [-(iAA : Int) - 1, (iJQ : Int), -(iAB : Int) - 1, (iQG : Int), -(iAC : Int) - 1]
        = "A A A" := by
    rw [decodeGo_pb gAA (by simp [hAA]),
      decodeGo_space_single gJQ ltJQ rfl (isSpaceTok_neg (-(iAB : Int) - 1) (by omega)) _,
      decodeGo_pb gAB (by simp [hAB]),
      decodeGo_space_single gQG ltQG rfl (isSpaceTok_neg (-(iAC : Int) - 1) (by omega)) _,
      decodeGo_pb gAC (by simp [hAC]), decodeGo_nil]
    rfl
  have d1 : iAA ≠ iAB := fun he => by
    rw [he] at hAA
    exact absurd (lookup_inj hAA hAB) (by decide)
  have d2 : iAA ≠ iAC := fun he => by
    rw [he] at hAA
    exact absurd (lookup_inj hAA hAC) (by decide)
  have d3 : iAB ≠ iAC := fun he => by
    rw [he] at hAB
    exact absurd (lookup_inj hAB hAC) (by decide)
  rw [symOf_eq hAA, symOf_eq hAB, symOf_eq hAC, symOf_eq hJQ, symOf_eq hQG]
  exact ⟨hstream, d1, d2, d3, by rw [hstream]; exact hdec⟩

/-- Claim C5: for every generated key, encoding `"A A A"` produces three
partial-before tokens referencing the three distinct symbols of the
rotation bigrams `AA`, `AB`, `AC` (with a space marker between words), and
decoding yields `"A A A"`. -/
theorem claim_C5_standalone_a_rotation (r : String) (s : Nat) :
    encode (generate_key r s) "A A A" =
      [-(symOf (generate_key r s) "AA" : Int) - 1, (symOf (generate_key r s) "SPACE_JQ" : Int),
        -(symOf (generate_key r s) "AB" : Int) - 1, (symOf (generate_key r s) "SPACE_QG" : Int),
        -(symOf (generate_key r s) "AC" : Int) - 1] ∧
    symOf (generate_key r s) "AA" ≠ symOf (generate_key r s) "AB" ∧
    symOf (generate_key r s) "AA" ≠ symOf (generate_key r s) "AC" ∧
    symOf (generate_key r s) "AB" ≠ symOf (generate_key r s) "AC" ∧
    decode (generate_key r s) (encode (generate_key r s) "A A A") = "A A A" :=
  aaa_roundtrip (generate_key r s) (keyPerm_generate r s)

/-! ## Claims C4 / C10 : space markers and sentence boundaries -/

/-- Which tokens of a stream resolve (as plain symbols) to space-marker
meanings — the decoder's own lookahead test applied pointwise. -/
def tokensAreSpace (k : Key) (ts : List Int) : List Bool :=
  ts.map (fun t => isSpaceTok k t)

theorem one_two_three_four_roundtrip (k : Key) (hk : KeyPerm k) :
    encode k "ONE TWO. THREE FOUR." =
      [(symOf k "ON" : Int), -(symOf k "EA" : Int) - 1, (symOf k "SPACE_JQ" : Int),
        (symOf k "TW" : Int), -(symOf k "OA" : Int) - 1, (symOf k "SPACE_QG" : Int),
        (symOf k "SPACE_QK" : Int), (symOf k "TH" : Int), (symOf k "RE" : Int),
        (symOf k "RE" : Int) + 10000, (symOf k "SPACE_QY" : Int), (symOf k "FO" : Int),
        (symOf k "UR" : Int)] ∧
    tokensAreSpace k (encode k "ONE TWO. THREE FOUR.") =
      [false, false, true, false, false, true, true, false, false, false, true, false, false] ∧
    decode k (encode k "ONE TWO. THREE FOUR.") = "ONE TWO. THREE FOUR" := by
  obtain ⟨iON, hON, gON, ltON⟩ := symFacts hk (show "ON" ∈ keyItems by decide)
  obtain ⟨iEA, hEA, gEA, ltEA⟩ := symFacts hk (show "EA" ∈ keyItems by decide)
  obtain ⟨iTW, hTW, gTW, ltTW⟩ := symFacts hk (show "TW" ∈ keyItems by decide)
  obtain ⟨iOA, hOA, gOA, ltOA⟩ := symFacts hk (show "OA" ∈ keyItems by decide)
  obtain ⟨iTH, hTH, gTH, ltTH⟩ := symFacts hk (show "TH" ∈ keyItems by decide)
  obtain ⟨iRE, hRE, gRE, ltRE⟩ := symFacts hk (show "RE" ∈ keyItems by decide)
  obtain ⟨iFO, hFO, gFO, ltFO⟩ := symFacts hk (show "FO" ∈ keyItems by decide)
  obtain ⟨iUR, hUR, gUR, ltUR⟩ := symFacts hk (show "UR" ∈ keyItems by decide)
  obtain ⟨iJQ, hJQ, gJQ, ltJQ⟩ := symFacts hk (show "SPACE_JQ" ∈ keyItems by decide)
  obtain ⟨iQG, hQG, gQG, ltQG⟩ := symFacts hk (show "SPACE_QG" ∈ keyItems by decide)
  obtain ⟨iQK, hQK, gQK, ltQK⟩ := symFacts hk (show "SPACE_QK" ∈ keyItems by decide)
  obtain ⟨iQY, hQY, gQY, ltQY⟩ := symFacts hk (show "SPACE_QY" ∈ keyItems by decide)
  have hstream : encode k "ONE TWO. THREE FOUR." =
      [(iON : Int), -(iEA : Int) - 1, (iJQ : Int), (iTW : Int), -(iOA : Int) - 1,
        (iQG : Int), (iQK : Int), (iTH : Int), (iRE : Int), (iRE : Int) + 10000,
        (iQY : Int), (iFO : Int), (iUR : Int)] := by
    have h0 : encode k "ONE TWO. THREE FOUR." =
        (((tokP k "ON" ++ []) ++ tokPB k "EA") ++
          tokSp k "SPACE_JQ" :: ((tokP k "TW" ++ []) ++ tokPB k "OA")) ++
        tokSp k "SPACE_QG" :: tokSp k "SPACE_QK" ::
          (((tokP k "TH" ++ (tokP k "RE" ++ [])) ++
              tokFound k "RE" 3 (tokPB k "EA")) ++
            tokSp k "SPACE_QY" :: (tokP k "FO" ++ (tokP k "UR" ++ []))) := rfl
    rw [h0, tokP_eq hON, tokPB_eq hEA, tokSp_eq hJQ, tokP_eq hTW, tokPB_eq hOA,
      tokSp_eq hQG, tokSp_eq hQK, tokP_eq hTH, tokP_eq hRE,
      tokFound_eq_odd hRE (by decide), tokSp_eq hQY, tokP_eq hFO, tokP_eq hUR]
    rfl
  have hnTW : isSpaceTok k (iTW : Int) = false := (isSpaceTok_plain gTW).trans rfl
  have hsQK : isSpaceTok k (iQK : Int) = true := (isSpaceTok_plain gQK).trans rfl
  have hnFO : isSpaceTok k (iFO : Int) = false := (isSpaceTok_plain gFO).trans rfl
  have hdec : decodeGo k
      [(iON : Int), -(iEA : Int) - 1, (iJQ : Int), (iTW : Int), -(iOA : Int) - 1,
        (iQG : Int), (iQK : Int), (iTH : Int), (iRE : Int), (iRE : Int) + 10000,
        (iQY : Int), (iFO : Int), (iUR : Int)] = "ONE TWO. THREE FOUR" := by
    rw [decodeGo_plain_bigram gON ltON rfl rfl rfl (by decide) rfl (by simp [hON]),
      decodeGo_pb gEA (by simp [hEA]),
      decodeGo_space_single gJQ ltJQ rfl hnTW,
      decodeGo_plain_bigram gTW ltTW rfl rfl rfl (by decide) rfl (by simp [hTW]),
      decodeGo_pb gOA (by simp [hOA]),
      decodeGo_space_double gQG ltQG rfl hsQK,
      decodeGo_plain_bigram gTH ltTH rfl rfl rfl (by decide) rfl (by simp [hTH]),
      decodeGo_plain_bigram gRE ltRE rfl rfl rfl (by decide) rfl (by simp [hRE]),
      decodeGo_pa gRE (by simp [hRE]),
      decodeGo_space_single gQY ltQY rfl hnFO,
      decodeGo_plain_bigram gFO ltFO rfl rfl rfl (by decide) rfl (by simp [hFO]),
      decodeGo_plain_bigram gUR ltUR rfl rfl rfl (by decide) rfl (by simp [hUR]),
      decodeGo_nil]
    rfl
  have f0 : isSpaceTok k (iON : Int) = false := (isSpaceTok_plain gON).trans rfl
  have f1 : isSpaceTok k (-(iEA : Int) - 1) = false := isSpaceTok_neg _ (by omega)
  have t2 : isSpaceTok k (iJQ : Int) = true := (isSpaceTok_plain gJQ).trans rfl
  have f4 : isSpaceTok k (-(iOA : Int) - 1) = false := isSpaceTok_neg _ (by omega)
  have t5 : isSpaceTok k (iQG : Int) = true := (isSpaceTok_plain gQG).trans rfl
  have f7 : isSpaceTok k (iTH : Int) = false := (isSpaceTok_plain gTH).trans rfl
  have f8 : isSpaceTok k (iRE : Int) = false := (isSpaceTok_plain gRE).trans rfl
  have f9 : isSpaceTok k ((iRE : Int) + 10000) = false :=
    isSpaceTok_big hk (by have h := totalSymbols_eq; omega)
  have t10 : isSpaceTok k (iQY : Int) = true := (isSpaceTok_plain gQY).trans rfl
  have f12 : isSpaceTok k (iUR : Int) = false := (isSpaceTok_plain gUR).trans rfl
  rw [symOf_eq hON, symOf_eq hEA, symOf_eq hJQ, symOf_eq hTW, symOf_eq hOA,
    symOf_eq hQG, symOf_eq hQK, symOf_eq hTH, symOf_eq hRE, symOf_eq hQY,
    symOf_eq hFO, symOf_eq hUR]
  refine ⟨hstream, ?_, ?_⟩
  · rw [hstream]
    simp only [tokensAreSpace, List.map_cons, List.map_nil]
    rw [f0, f1, t2, hnTW, f4, t5, hsQK, f7, f8, f9, t10, hnFO, f12]
  · rw [hstream]
    exact hdec

/-- Claim C4: for every generated key, encoding `"ONE TWO. THREE FOUR."`
emits exactly one pair of consecutive space-marker tokens, at positions 5-6
(the sentence boundary); the only other space markers are the isolated word
separators at positions 2 and 10, and none is emitted after the last
sentence.  Decoding the stream reproduces `". "` at the boundary (the
decoded text is `"ONE TWO. THREE FOUR"`), not two literal spaces. -/
theorem claim_C4_sentence_marker_doubling (r : String) (s : Nat) :
    tokensAreSpace (generate_key r s) (encode (generate_key r s) "ONE TWO. THREE FOUR.") =
      [false, false, true, false, false, true, true, false, false, false, true, false, false] ∧
    decode (generate_key r s) (encode (generate_key r s) "ONE TWO. THREE FOUR.")
      = "ONE TWO. THREE FOUR" ∧
    isSubstr ". ".data
      (decode (generate_key r s) (encode (generate_key r s) "ONE TWO. THREE FOUR.")).data
      = true ∧
    isSubstr "  ".data
      (decode (generate_key r s) (encode (generate_key r s) "ONE TWO. THREE FOUR.")).data
      = false := by
  obtain ⟨-, h2, h3⟩ :=
    one_two_three_four_roundtrip (generate_key r s) (keyPerm_generate r s)
  refine ⟨h2, h3, ?_, ?_⟩ <;> rw [h3] <;> rfl

theorem hello_dashes_world_roundtrip (k : Key) (hk : KeyPerm k) :
    encode k "HELLO -- WORLD" =
      [(symOf k "HE" : Int), (symOf k "LL" : Int), -(symOf k "OA" : Int) - 1,
        (symOf k "SPACE_JQ" : Int), (symOf k "SPACE_QG" : Int), (symOf k "WO" : Int),
        (symOf k "RL" : Int), -(symOf k "DA" : Int) - 1] ∧
    tokensAreSpace k (encode k "HELLO -- WORLD") =
      [false, false, false, true, true, false, false, false] ∧
    decode k (encode k "HELLO -- WORLD") = "HELLO. WORLD" := by
  obtain ⟨iHE, hHE, gHE, ltHE⟩ := symFacts hk (show "HE" ∈ keyItems by decide)
  obtain ⟨iLL, hLL, gLL, ltLL⟩ := symFacts hk (show "LL" ∈ keyItems by decide)
  obtain ⟨iOA, hOA, gOA, ltOA⟩ := symFacts hk (show "OA" ∈ keyItems by decide)
  obtain ⟨iWO, hWO, gWO, ltWO⟩ := symFacts hk (show "WO" ∈ keyItems by decide)
  obtain ⟨iRL, hRL, gRL, ltRL⟩ := symFacts hk (show "RL" ∈ keyItems by decide)
  obtain ⟨iDA, hDA, gDA, ltDA⟩ := symFacts hk (show "DA" ∈ keyItems by decide)
  obtain ⟨iJQ, hJQ, gJQ, ltJQ⟩ := symFacts hk (show "SPACE_JQ" ∈ keyItems by decide)
  obtain ⟨iQG, hQG, gQG, ltQG⟩ := symFacts hk (show "SPACE_QG" ∈ keyItems by decide)
  have hstream : encode k "HELLO -- WORLD" =
      [(iHE : Int), (iLL : Int), -(iOA : Int) - 1, (iJQ : Int), (iQG : Int),
        (iWO : Int), (iRL : Int), -(iDA : Int) - 1] := by
    have h0 : encode k "HELLO -- WORLD" =
        ((tokP k "HE" ++ (tokP k "LL" ++ [])) ++ tokPB k "OA") ++
          tokSp k "SPACE_JQ" :: ([] ++
            tokSp k "SPACE_QG" ::
              ((tokP k "WO" ++ (tokP k "RL" ++ [])) ++ tokPB k "DA")) := rfl
    rw [h0, tokP_eq hHE, tokP_eq hLL, tokPB_eq hOA, tokSp_eq hJQ, tokSp_eq hQG,
      tokP_eq hWO, tokP_eq hRL, tokPB_eq hDA]
    rfl
  have hsQG : isSpaceTok k (iQG : Int) = true := (isSpaceTok_plain gQG).trans rfl
  have hdec : decodeGo k
      [(iHE : Int), (iLL : Int), -(iOA : Int) - 1, (iJQ : Int), (iQG : Int),
        (iWO : Int), (iRL : Int), -(iDA : Int) - 1] = "HELLO. WORLD" := by
    rw [decodeGo_plain_bigram gHE ltHE rfl rfl rfl (by decide) rfl (by simp [hHE]),
      decodeGo_plain_bigram gLL ltLL rfl rfl rfl (by decide) rfl (by simp [hLL]),
      decodeGo_pb gOA (by simp [hOA]),
      decodeGo_space_double gJQ ltJQ rfl hsQG,
      decodeGo_plain_bigram gWO ltWO rfl rfl rfl (by decide) rfl (by simp [hWO]),
      decodeGo_plain_bigram gRL ltRL rfl rfl rfl (by decide) rfl (by simp [hRL]),
      decodeGo_pb gDA (by simp [hDA]), decodeGo_nil]
    rfl
  have f0 : isSpaceTok k (iHE : Int) = false := (isSpaceTok_plain gHE).trans rfl
  have f1 : isSpaceTok k (iLL : Int) = false := (isSpaceTok_plain gLL).trans rfl
  have f2 : isSpaceTok k (-(iOA : Int) - 1) = false := isSpaceTok_neg _ (by omega)
  have t3 : isSpaceTok k (iJQ : Int) = true := (isSpaceTok_plain gJQ).trans rfl
  have f5 : isSpaceTok k (iWO : Int) = false := (isSpaceTok_plain gWO).trans rfl
  have f6 : isSpaceTok k (iRL : Int) = false := (isSpaceTok_plain gRL).trans rfl
  have f7 : isSpaceTok k (-(iDA : Int) - 1) = false := isSpaceTok_neg _ (by omega)
  rw [symOf_eq hHE, symOf_eq hLL, symOf_eq hOA, symOf_eq hJQ, symOf_eq hQG,
    symOf_eq hWO, symOf_eq hRL, symOf_eq hDA]
  refine ⟨hstream, ?_, ?_⟩
  · rw [hstream]
    simp only [tokensAreSpace, List.map_cons, List.map_nil]
    rw [f0, f1, f2, t3, hsQG, f5, f6, f7]
  · rw [hstream]
    exact hdec

/-- Claim C10: `"HELLO -- WORLD"` is a single sentence, yet its middle word
`"--"` (all non-alphanumeric) encodes to zero tokens while the space markers
around it are still emitted, so for every generated key the stream carries
two consecutive space-marker tokens (positions 3-4) inside the sentence;
the decoder renders them as the sentence-boundary string `". "` — decoding
yields `"HELLO. WORLD"`, with no two-space run. -/
theorem claim_C10_spurious_sentence_boundary (r : String) (s : Nat) :
    split_sentences (pyUpper "HELLO -- WORLD") = ["HELLO -- WORLD"] ∧
    tokensAreSpace (generate_key r s) (encode (generate_key r s) "HELLO -- WORLD") =
      [false, false, false, true, true, false, false, false] ∧
    decode (generate_key r s) (encode (generate_key r s) "HELLO -- WORLD")
      = "HELLO. WORLD" ∧
    isSubstr ". ".data
      (decode (generate_key r s) (encode (generate_key r s) "HELLO -- WORLD")).data = true ∧
    isSubstr "  ".data
      (decode (generate_key r s) (encode (generate_key r s) "HELLO -- WORLD")).data
      = false := by
  obtain ⟨-, h2, h3⟩ :=
    hello_dashes_world_roundtrip (generate_key r s) (keyPerm_generate r s)
  refine ⟨by decide, h2, h3, ?_, ?_⟩ <;> rw [h3] <;> rfl

/-! ## Claim C7 : math expression sign encoding -/

theorem lookup_isSome {k : Key} (hk : KeyPerm k) {m : String} (hm : m ∈ keyItems) :
    (meaning_to_symbol k m).isSome = true := by
  obtain ⟨i, hi, -, -⟩ := symFacts hk hm
  simp [hi]

/-- A three-lookup token stream in `symOf` form. -/
theorem tok3_symOf {k : Key} {m1 m2 m3 : String} {ts : List Int}
    (he : ts = ((tokP k m1 ++ []) ++ tokP k m2) ++ (tokP k m3 ++ []))
    (h1 : (meaning_to_symbol k m1).isSome = true)
    (h2 : (meaning_to_symbol k m2).isSome = true)
    (h3 : (meaning_to_symbol k m3).isSome = true) :
    ts = [(symOf k m1 : Int), (symOf k m2 : Int), (symOf k m3 : Int)] := by
  obtain ⟨i1, e1⟩ := Option.isSome_iff_exists.mp h1
  obtain ⟨i2, e2⟩ := Option.isSome_iff_exists.mp h2
  obtain ⟨i3, e3⟩ := Option.isSome_iff_exists.mp h3
  rw [he, tokP_eq e1, tokP_eq e2, tokP_eq e3, symOf_eq e1, symOf_eq e2, symOf_eq e3]
  rfl

theorem math_sign_encoding (k : Key) (hk : KeyPerm k) :
    encode_math_expression k "2 * 3" =
      [(symOf k "NUM_2" : Int), (symOf k "MULDIV" : Int), (symOf k "NUM_3" : Int)] ∧
    decode k (encode_math_expression k "2 * 3") = "2 * 3" ∧
    encode_math_expression k "6 / 2" =
      [(symOf k "NUM_6" : Int), (symOf k "MULDIV" : Int), (symOf k "NUM_NEG_2" : Int)] ∧
    decode k (encode_math_expression k "6 / 2") = "6 / 2" ∧
    encode_math_expression k "6 / 0" =
      [(symOf k "NUM_6" : Int), (symOf k "MULDIV" : Int), (symOf k "NUM_0" : Int)] ∧
    get_meaning_from_symbol k (symOf k "NUM_0" : Int) = some "NUM_0" ∧
    decode k (encode_math_expression k "6 / 0") = "6 * 0" := by
  obtain ⟨iN2, hN2, gN2, ltN2⟩ := symFacts hk (show "NUM_2" ∈ keyItems by decide)
  obtain ⟨iN3, hN3, gN3, ltN3⟩ := symFacts hk (show "NUM_3" ∈ keyItems by decide)
  obtain ⟨iN6, hN6, gN6, ltN6⟩ := symFacts hk (show "NUM_6" ∈ keyItems by decide)
  obtain ⟨iN0, hN0, gN0, ltN0⟩ := symFacts hk (show "NUM_0" ∈ keyItems by decide)
  obtain ⟨iNN2, hNN2, gNN2, ltNN2⟩ := symFacts hk (show "NUM_NEG_2" ∈ keyItems by decide)
  obtain ⟨iMD, hMD, gMD, ltMD⟩ := symFacts hk (show "MULDIV" ∈ keyItems by decide)
  have hs1 : encode_math_expression k "2 * 3" = [(iN2 : Int), (iMD : Int), (iN3 : Int)] := by
    have h0 : encode_math_expression k "2 * 3" =
        ((tokP k "NUM_2" ++ []) ++ tokP k "MULDIV") ++ (tokP k "NUM_3" ++ []) := rfl
    rw [h0, tokP_eq hN2, tokP_eq hMD, tokP_eq hN3]
    rfl
  have hs2 : encode_math_expression k "6 / 2" = [(iN6 : Int), (iMD : Int), (iNN2 : Int)] := by
    have h0 : encode_math_expression k "6 / 2" =
        ((tokP k "NUM_6" ++ []) ++ tokP k "MULDIV") ++ (tokP k "NUM_NEG_2" ++ []) := rfl
    rw [h0, tokP_eq hN6, tokP_eq hMD, tokP_eq hNN2]
    rfl
  have hs3 : encode_math_expression k "6 / 0" = [(iN6 : Int), (iMD : Int), (iN0 : Int)] := by
    have h0 : encode_math_expression k "6 / 0" =
        ((tokP k "NUM_6" ++ []) ++ tokP k "MULDIV") ++ (tokP k "NUM_0" ++ []) := rfl
    rw [h0, tokP_eq hN6, tokP_eq hMD, tokP_eq hN0]
    rfl
  have hn3 : isNegNumTok k (iN3 : Int) = false := (isNegNumTok_plain gN3).trans rfl
  have hp2 : isNegNumTok k (iNN2 : Int) = true := (isNegNumTok_plain gNN2).trans rfl
  have hn0 : isNegNumTok k (iN0 : Int) = false := (isNegNumTok_plain gN0).trans rfl
  have hd1 : decodeGo k [(iN2 : Int), (iMD : Int), (iN3 : Int)] = "2 * 3" := by
    rw [decodeGo_num gN2 ltN2 rfl rfl,
      decodeGo_muldiv_cons gMD ltMD, hn3,
      decodeGo_num gN3 ltN3 rfl rfl, decodeGo_nil]
    rfl
  have hd2 : decodeGo k [(iN6 : Int), (iMD : Int), (iNN2 : Int)] = "6 / 2" := by
    rw [decodeGo_num gN6 ltN6 rfl rfl,
      decodeGo_muldiv_cons gMD ltMD, hp2,
      decodeGo_num gNN2 ltNN2 rfl rfl, decodeGo_nil]
    rfl
  have hd3 : decodeGo k [(iN6 : Int), (iMD : Int), (iN0 : Int)] = "6 * 0" := by
    rw [decodeGo_num gN6 ltN6 rfl rfl,
      decodeGo_muldiv_cons gMD ltMD, hn0,
      decodeGo_num gN0 ltN0 rfl rfl, decodeGo_nil]
    rfl
  rw [symOf_eq hN2, symOf_eq hN3, symOf_eq hN6, symOf_eq hN0, symOf_eq hNN2, symOf_eq hMD]
  exact ⟨hs1, by rw [hs1]; exact hd1, hs2, by rw [hs2]; exact hd2, hs3,
    get_meaning_plain gN0, by rw [hs3]; exact hd3⟩

theorem math_div_nonzero_digit (k : Key) (hk : KeyPerm k) :
    ∀ c ∈ "123456789".data,
      encode_math_expression k ("6 / " ++ String.mk [c]) =
        [(symOf k "NUM_6" : Int), (symOf k "MULDIV" : Int),
          (symOf k ("NUM_NEG_" ++ String.mk [c]) : Int)] := by
  intro c hc
  fin_cases hc <;>
    exact tok3_symOf rfl (lookup_isSome hk (by decide)) (lookup_isSome hk (by decide))
      (lookup_isSome hk (by decide))

theorem math_mul_digit (k : Key) (hk : KeyPerm k) :
    ∀ c ∈ "0123456789".data,
      encode_math_expression k ("6 * " ++ String.mk [c]) =
        [(symOf k "NUM_6" : Int), (symOf k "MULDIV" : Int),
          (symOf k ("NUM_" ++ String.mk [c]) : Int)] := by
  intro c hc
  fin_cases hc <;>
    exact tok3_symOf rfl (lookup_isSome hk (by decide)) (lookup_isSome hk (by decide))
      (lookup_isSome hk (by decide))

/-- Claim C7, counterexample: at the generated key `generate_key "X" 0` and
the expression `"6 / 0"`, the operator is `/` yet the second operand's
digit is emitted as the positive `NUM_0` symbol (because `-0 = 0`), and the
decoded text reads `"6 * 0"` — it contains `" * "` and not `" / "`.  So
"NegDigit exactly when the operator is '/'" is false as stated. -/
theorem claim_C7_counterexample :
    encode_math_expression (generate_key "X" 0) "6 / 0" =
      [(symOf (generate_key "X" 0) "NUM_6" : Int), (symOf (generate_key "X" 0) "MULDIV" : Int),
        (symOf (generate_key "X" 0) "NUM_0" : Int)] ∧
    get_meaning_from_symbol (generate_key "X" 0) (symOf (generate_key "X" 0) "NUM_0" : Int)
      = some "NUM_0" ∧
    decode (generate_key "X" 0) (encode_math_expression (generate_key "X" 0) "6 / 0")
      = "6 * 0" ∧
    isSubstr " * ".data
      (decode (generate_key "X" 0)
        (encode_math_expression (generate_key "X" 0) "6 / 0")).data = true ∧
    isSubstr " / ".data
      (decode (generate_key "X" 0)
        (encode_math_expression (generate_key "X" 0) "6 / 0")).data = false := by
  obtain ⟨-, -, -, -, h5, h6, h7⟩ :=
    math_sign_encoding (generate_key "X" 0) (keyPerm_generate "X" 0)
  refine ⟨h5, h6, h7, ?_, ?_⟩ <;> rw [h7] <;> rfl

/-- Claim C7 as amended: the second operand's digits are emitted as
`NUM_NEG` symbols when the operator is `/` and the digit is nonzero; the
digit `0` is emitted as the positive `NUM_0` symbol even under `/` (since
`-0 = 0`, its decode then shows `" * "`); under `*` every digit is emitted
as a positive `NUM` symbol.  Decoding `encode_math_expression "2 * 3"`
yields `"2 * 3"` (contains `" * "`) and decoding `"6 / 2"` yields `"6 / 2"`
(contains `" / "`). -/
theorem claim_C7_math_sign_encoding (r : String) (s : Nat) :
    encode_math_expression (generate_key r s) "2 * 3" =
      [(symOf (generate_key r s) "NUM_2" : Int), (symOf (generate_key r s) "MULDIV" : Int),
        (symOf (generate_key r s) "NUM_3" : Int)] ∧
    decode (generate_key r s) (encode_math_expression (generate_key r s) "2 * 3")
      = "2 * 3" ∧
    isSubstr " * ".data
      (decode (generate_key r s)
        (encode_math_expression (generate_key r s) "2 * 3")).data = true ∧
    encode_math_expression (generate_key r s) "6 / 2" =
      [(symOf (generate_key r s) "NUM_6" : Int), (symOf (generate_key r s) "MULDIV" : Int),
        (symOf (generate_key r s) "NUM_NEG_2" : Int)] ∧
    decode (generate_key r s) (encode_math_expression (generate_key r s) "6 / 2")
      = "6 / 2" ∧
    isSubstr " / ".data
      (decode (generate_key r s)
        (encode_math_expression (generate_key r s) "6 / 2")).data = true ∧
    encode_math_expression (generate_key r s) "6 / 0" =
      [(symOf (generate_key r s) "NUM_6" : Int), (symOf (generate_key r s) "MULDIV" : Int),
        (symOf (generate_key r s) "NUM_0" : Int)] ∧
    (∀ c ∈ "123456789".data,
      encode_math_expression (generate_key r s) ("6 / " ++ String.mk [c]) =
        [(symOf (generate_key r s) "NUM_6" : Int), (symOf (generate_key r s) "MULDIV" : Int),
          (symOf (generate_key r s) ("NUM_NEG_" ++ String.mk [c]) : Int)]) ∧
    (∀ c ∈ "0123456789".data,
      encode_math_expression (generate_key r s) ("6 * " ++ String.mk [c]) =
        [(symOf (generate_key r s) "NUM_6" : Int), (symOf (generate_key r s) "MULDIV" : Int),
          (symOf (generate_key r s) ("NUM_" ++ String.mk [c]) : Int)]) := by
  obtain ⟨h1, h2, h3, h4, h5, -, -⟩ :=
    math_sign_encoding (generate_key r s) (keyPerm_generate r s)
  refine ⟨h1, h2, ?_, h3, h4, ?_, h5,
    math_div_nonzero_digit (generate_key r s) (keyPerm_generate r s),
    math_mul_digit (generate_key r s) (keyPerm_generate r s)⟩
  · rw [h2]; rfl
  · rw [h4]; rfl

/-- Claim C7, witness: the amended theorem applied at `("X", 0)` with the
digit hypotheses discharged at `'2'` and `'0'`. -/
theorem claim_C7_math_sign_encoding_witness :
    ('2' ∈ "123456789".data) ∧ ('0' ∈ "0123456789".data) ∧
    encode_math_expression (generate_key "X" 0) ("6 / " ++ String.mk ['2']) =
      [(symOf (generate_key "X" 0) "NUM_6" : Int), (symOf (generate_key "X" 0) "MULDIV" : Int),
        (symOf (generate_key "X" 0) ("NUM_NEG_" ++ String.mk ['2']) : Int)] ∧
    encode_math_expression (generate_key "X" 0) ("6 * " ++ String.mk ['0']) =
      [(symOf (generate_key "X" 0) "NUM_6" : Int), (symOf (generate_key "X" 0) "MULDIV" : Int),
        (symOf (generate_key "X" 0) ("NUM_" ++ String.mk ['0']) : Int)] :=
  ⟨by decide, by decide,
    (claim_C7_math_sign_encoding "X" 0).2.2.2.2.2.2.2.1 '2' (by decide),
    (claim_C7_math_sign_encoding "X" 0).2.2.2.2.2.2.2.2 '0' (by decide)⟩

/-! ## Claim C9 : token shape invariant -/

/-- How many of the three token ranges (partial-before `[-718, -1]`, plain
`[0, 717]`, partial-after `[10000, 10717]`) a token falls into. -/
def tokenShapeCount (t : Int) : Nat :=
  (if -718 ≤ t ∧ t ≤ -1 then 1 else 0) + (if 0 ≤ t ∧ t ≤ 717 then 1 else 0) +
    (if 10000 ≤ t ∧ t ≤ 10717 then 1 else 0)

theorem shape_plain {i : Nat} (h : i < 718) : tokenShapeCount (i : Int) = 1 := by
  rw [tokenShapeCount, if_neg (by omega), if_pos (by omega), if_neg (by omega)]

theorem shape_pb {i : Nat} (h : i < 718) : tokenShapeCount (-(i : Int) - 1) = 1 := by
  rw [tokenShapeCount, if_pos (by omega), if_neg (by omega), if_neg (by omega)]

theorem shape_pa {i : Nat} (h : i < 718) : tokenShapeCount ((i : Int) + 10000) = 1 := by
  rw [tokenShapeCount, if_neg (by omega), if_neg (by omega), if_pos (by omega)]

theorem lookup_lt_718 {k : Key} {m : String} {i : Nat} (hk : KeyPerm k)
    (h : meaning_to_symbol k m = some i) : i < 718 := by
  have h1 := lookup_lt hk h
  have h2 := totalSymbols_eq
  omega

theorem shape_encode_pairs {k : Key} (hk : KeyPerm k) :
    ∀ (cs : List Char) (t : Int), t ∈ encode_pairs k cs → tokenShapeCount t = 1
  | [] => by intro t ht; simp [encode_pairs] at ht
  | [a] => by intro t ht; simp [encode_pairs] at ht
  | a :: b :: rest => by
    intro t ht
    have h0 : encode_pairs k (a :: b :: rest) =
        (match meaning_to_symbol k (String.mk [a, b]) with
         | some s => [(s : Int)]
         | none => []) ++ encode_pairs k rest := rfl
    rw [h0] at ht
    rcases List.mem_append.mp ht with h | h
    · rcases hl : meaning_to_symbol k (String.mk [a, b]) with - | s
      · rw [hl] at h; simp at h
      · rw [hl] at h
        simp only [List.mem_singleton] at h
        rw [h]
        exact shape_plain (lookup_lt_718 hk hl)
    · exact shape_encode_pairs hk rest t h

theorem shape_flScan {k : Key} (hk : KeyPerm k) (w : List Char) (last : Char) :
    ∀ (idxs : List Nat) (t : Int), t ∈ flScan k w last idxs → tokenShapeCount t = 1
  | [] => by
    intro t ht
    have h0 : flScan k w last [] =
        (match meaning_to_symbol k (String.mk [last, 'A']) with
         | some s => [-(s : Int) - 1]
         | none => []) := rfl
    rw [h0] at ht
    rcases hl : meaning_to_symbol k (String.mk [last, 'A']) with - | s
    · rw [hl] at ht; simp at ht
    · rw [hl] at ht
      simp only [List.mem_singleton] at ht
      rw [ht]
      exact shape_pb (lookup_lt_718 hk hl)
  | idx :: rest => by
    intro t ht
    by_cases h1 : w.getD idx ' ' = last
    · rw [flScan, if_pos h1] at ht
      by_cases h2 : idx / 2 * 2 + 1 < w.length
      · rw [if_pos h2] at ht
        rcases hl : meaning_to_symbol k
            (String.mk [w.getD (idx / 2 * 2) ' ', w.getD (idx / 2 * 2 + 1) ' ']) with - | s
        · have h3 : get_symbol_for_bigram k
              (String.mk [w.getD (idx / 2 * 2) ' ', w.getD (idx / 2 * 2 + 1) ' ']) = none := hl
          rw [h3] at ht
          exact shape_flScan hk w last rest t ht
        · have h3 : get_symbol_for_bigram k
              (String.mk [w.getD (idx / 2 * 2) ' ', w.getD (idx / 2 * 2 + 1) ' ']) = some s := hl
          rw [h3] at ht
          have hred : (match some s with
              | some s => if idx % 2 = 0 then [-(s : Int) - 1] else [(s : Int) + 10000]
              | none => flScan k w last rest)
              = if idx % 2 = 0 then [-(s : Int) - 1] else [(s : Int) + 10000] := rfl
          rw [hred] at ht
          by_cases h4 : idx % 2 = 0
          · rw [if_pos h4] at ht
            simp only [List.mem_singleton] at ht
            rw [ht]
            exact shape_pb (lookup_lt_718 hk hl)
          · rw [if_neg h4] at ht
            simp only [List.mem_singleton] at ht
            rw [ht]
            exact shape_pa (lookup_lt_718 hk hl)
      · rw [if_neg h2] at ht
        exact shape_flScan hk w last rest t ht
    · rw [flScan, if_neg h1] at ht
      exact shape_flScan hk w last rest t ht

theorem shape_encode_number_sequence {k : Key} (hk : KeyPerm k) (cs : List Char) :
    ∀ t ∈ encode_number_sequence k cs, tokenShapeCount t = 1 := by
  intro t ht
  rw [encode_number_sequence, List.mem_flatMap] at ht
  obtain ⟨c, -, hc⟩ := ht
  rcases hl : get_symbol_for_number k ((c.toNat - 48 : Nat) : Int) with - | s
  · rw [hl] at hc; simp at hc
  · rw [hl] at hc
    simp only [List.mem_singleton] at hc
    rw [hc]
    rw [get_symbol_for_number, if_pos (by omega)] at hl
    exact shape_plain (lookup_lt_718 hk hl)

theorem shape_space_marker {k : Key} (hk : KeyPerm k) (st : Rot) :
    tokenShapeCount (get_space_marker k st).1 = 1 := by
  rcases hl : get_symbol_for_space_marker k
      (SPACE_MARKERS.getD (st.space % SPACE_MARKERS.length) "") with - | s
  · have h0 : (get_space_marker k st).1 = 0 := by
      rw [get_space_marker, hl]
    rw [h0]
    exact shape_plain (i := 0) (by omega)
  · have h0 : (get_space_marker k st).1 = (s : Int) := by
      rw [get_space_marker, hl]
    rw [h0]
    exact shape_plain (lookup_lt_718 hk hl)

theorem shape_standalone_a {k : Key} (hk : KeyPerm k) (st : Rot) :
    ∀ t ∈ (encode_standalone_a k st).1, tokenShapeCount t = 1 := by
  intro t ht
  rcases hl : get_symbol_for_bigram k (String.mk ['A', LETTERS.getD (st.a % 26) 'A'])
      with - | s
  · rw [encode_standalone_a, hl] at ht; simp at ht
  · rw [encode_standalone_a, hl] at ht
    simp only [List.mem_singleton] at ht
    rw [ht]
    exact shape_pb (lookup_lt_718 hk hl)

theorem shape_standalone_i {k : Key} (hk : KeyPerm k) (st : Rot) :
    ∀ t ∈ (encode_standalone_i k st).1, tokenShapeCount t = 1 := by
  intro t ht
  rcases hl : get_symbol_for_bigram k (String.mk ['I', LETTERS.getD (st.i % 26) 'A'])
      with - | s
  · rw [encode_standalone_i, hl] at ht; simp at ht
  · rw [encode_standalone_i, hl] at ht
    simp only [List.mem_singleton] at ht
    rw [ht]
    exact shape_pb (lookup_lt_718 hk hl)

theorem shape_encode_word {k : Key} (hk : KeyPerm k) (st : Rot) (w : String) :
    ∀ t ∈ (encode_word k st w).1, tokenShapeCount t = 1 := by
  intro t ht
  rw [encode_word] at ht
  by_cases h1 : w.data.filter pyIsAlnum = []
  · rw [if_pos h1] at ht; simp at ht
  rw [if_neg h1] at ht
  by_cases h2 : w.data.filter pyIsAlnum = ['A']
  · rw [if_pos h2] at ht
    exact shape_standalone_a hk st t ht
  rw [if_neg h2] at ht
  by_cases h3 : w.data.filter pyIsAlnum = ['I']
  · rw [if_pos h3] at ht
    exact shape_standalone_i hk st t ht
  rw [if_neg h3] at ht
  by_cases h4 : (w.data.filter pyIsAlnum).all pyIsDigit = true
  · rw [if_pos h4] at ht
    exact shape_encode_number_sequence hk _ t ht
  rw [if_neg h4] at ht
  by_cases h5 : (w.data.filter pyIsAlnum).length % 2 = 0
  · rw [if_pos h5] at ht
    exact shape_encode_pairs hk _ t ht
  · rw [if_neg h5] at ht
    simp only [List.mem_append] at ht
    rcases ht with h | h
    · exact shape_encode_pairs hk _ t h
    · exact shape_flScan hk _ _ _ t h

theorem shape_encode_words {k : Key} (hk : KeyPerm k) :
    ∀ (ws : List String) (st : Rot) (t : Int),
      t ∈ (encode_words k st ws).1 → tokenShapeCount t = 1
  | [] => by intro st t ht; simp [encode_words] at ht
  | [w] => by
    intro st t ht
    have h0 : (encode_words k st [w]).1 = (encode_word k st w).1 := rfl
    rw [h0] at ht
    exact shape_encode_word hk st w t ht
  | w :: w2 :: ws => by
    intro st t ht
    have h0 : (encode_words k st (w :: w2 :: ws)).1 =
        (encode_word k st w).1 ++
          (get_space_marker k (encode_word k st w).2).1 ::
            (encode_words k (get_space_marker k (encode_word k st w).2).2 (w2 :: ws)).1 := rfl
    rw [h0] at ht
    rcases List.mem_append.mp ht with h | h
    · exact shape_encode_word hk st w t h
    · rcases List.mem_cons.mp h with h | h
      · rw [h]
        exact shape_space_marker hk _
      · exact shape_encode_words hk (w2 :: ws) _ t h

theorem shape_encode_sentences {k : Key} (hk : KeyPerm k) :
    ∀ (ss : List String) (st : Rot) (t : Int),
      t ∈ (encode_sentences k st ss).1 → tokenShapeCount t = 1
  | [] => by intro st t ht; simp [encode_sentences] at ht
  | [s] => by
    intro st t ht
    have h0 : (encode_sentences k st [s]).1 = (encode_words k st (pySplit s)).1 := rfl
    rw [h0] at ht
    exact shape_encode_words hk _ st t ht
  | s :: s2 :: ss => by
    intro st t ht
    have h0 : (encode_sentences k st (s :: s2 :: ss)).1 =
        (encode_sentence k st s).1 ++
          (get_space_marker k (encode_sentence k st s).2).1 ::
            (get_space_marker k (get_space_marker k (encode_sentence k st s).2).2).1 ::
              (encode_sentences k
                (get_space_marker k (get_space_marker k (encode_sentence k st s).2).2).2
                (s2 :: ss)).1 := rfl
    rw [h0] at ht
    rcases List.mem_append.mp ht with h | h
    · exact shape_encode_words hk _ st t h
    · rcases List.mem_cons.mp h with h | h
      · rw [h]
        exact shape_space_marker hk _
      · rcases List.mem_cons.mp h with h | h
        · rw [h]
          exact shape_space_marker hk _
        · exact shape_encode_sentences hk (s2 :: ss) _ t h

/-- Claim C9: for every generated key and every input text, every token
`encode` emits lies in exactly one of the three disjoint ranges
`[-718, -1]` (partial-before), `[0, 717]` (plain), `[10000, 10717]`
(partial-after) — never in a gap and never in two ranges at once. -/
theorem claim_C9_token_shape_disjointness (r : String) (s : Nat) (text : String) :
    (encode (generate_key r s) text).all (fun t => tokenShapeCount t == 1) = true := by
  rw [List.all_eq_true]
  intro t ht
  rw [beq_iff_eq]
  exact shape_encode_sentences (keyPerm_generate r s) _ _ t ht
